import Mathlib

/-!
Shallow embedding of a small Express + better-sqlite3 + argon2 account
service (`src/index.ts`). The SQLite table `utilisateurs` is modelled as a
list of rows in insertion order together with the AUTOINCREMENT counter;
the argon2 hasher is an external library and is modelled as a parameter
(a salted hash function plus a verifier) whose contract is stated as a
separate predicate. Each Express route handler becomes a pure function
from the request body and the current state to a response and the new
state.
-/

namespace ApiRest

/-- A row of the `utilisateurs` table: `id INTEGER PRIMARY KEY AUTOINCREMENT`,
`nomutilisateur TEXT UNIQUE NOT NULL`, `motdepasse TEXT NOT NULL` (the argon2
hash), `email TEXT UNIQUE NOT NULL`. -/
structure Utilisateur where
  id : Nat
  nomutilisateur : String
  motdepasse : String
  email : String
deriving Repr, DecidableEq

/-- The shape returned to callers: `SELECT id, nomutilisateur, email`
(TypeScript type `Omit<Utilisateur, "motdepasse">`). -/
structure PublicUser where
  id : Nat
  nomutilisateur : String
  email : String
deriving Repr, DecidableEq

/-- Projection used by every read path: drops the `motdepasse` column. -/
def toPublic (r : Utilisateur) : PublicUser :=
  ⟨r.id, r.nomutilisateur, r.email⟩

/-- The SQLite database state: the rows of `utilisateurs` in rowid
(insertion) order, plus the AUTOINCREMENT counter for the next id. -/
structure Store where
  rows : List Utilisateur
  nextId : Nat
deriving Repr, DecidableEq

/-- The freshly created (empty) table; AUTOINCREMENT starts ids at 1. -/
def Store.init : Store := ⟨[], 1⟩

/-- The argon2 library, abstracted: `hash` takes a salt (drawn from a
counter threaded through the state, modelling the non-deterministic salt
argon2 picks on each call) and the plaintext secret; `verify` takes a
stored token and a candidate secret. -/
structure Hasher where
  hash : Nat → String → String
  verify : String → String → Bool

/-- The argon2 contract (spec section 4.1): `verify` applied to a token
produced by `hash` returns true exactly when the candidate equals the
secret that was hashed. -/
def Hasher.Correct (H : Hasher) : Prop :=
  ∀ salt s c, H.verify (H.hash salt s) c = (c == s)

/-- JavaScript truthiness of a request-body string field: `undefined`
(here `none`) and the empty string are falsy. -/
def present : Option String → Bool
  | none => false
  | some s => !(s == "")

/-- Statement `INSERT INTO utilisateurs (nomutilisateur, motdepasse, email)
VALUES (?, ?, ?)`: the UNIQUE constraints on `nomutilisateur` and `email`
make it throw (`none`) when either value already occurs; otherwise the row
is appended with the next AUTOINCREMENT id, which is also the returned
`lastInsertRowid`. -/
def Store.insert (st : Store) (u p e : String) : Option (Store × Nat) :=
  if st.rows.any (fun r => r.nomutilisateur == u || r.email == e) then
    none
  else
    some (⟨st.rows ++ [⟨st.nextId, u, p, e⟩], st.nextId + 1⟩, st.nextId)

/-- Query `SELECT id, nomutilisateur, email FROM utilisateurs WHERE id = ?`
(the handler projects the row afterwards). -/
def Store.getById (st : Store) (id : Nat) : Option Utilisateur :=
  st.rows.find? (fun r => r.id == id)

/-- Query `SELECT motdepasse FROM utilisateurs WHERE nomutilisateur = ?`. -/
def Store.getHashByUsername (st : Store) (u : String) : Option String :=
  (st.rows.find? (fun r => r.nomutilisateur == u)).map (fun r => r.motdepasse)

/-- The `updates` object of the PUT handler: which of the three columns
appear in the dynamically built `SET` clause, and with what values. -/
structure FieldSet where
  nomutilisateur : Option String
  motdepasse : Option String
  email : Option String
deriving Repr, DecidableEq

/-- Applying a `SET` clause to one row: each listed column gets its new
value, every column not listed keeps its stored value. -/
def applyFields (fs : FieldSet) (r : Utilisateur) : Utilisateur :=
  { r with
    nomutilisateur := fs.nomutilisateur.getD r.nomutilisateur
    motdepasse := fs.motdepasse.getD r.motdepasse
    email := fs.email.getD r.email }

/-- Statement `UPDATE utilisateurs SET ... WHERE id = ?`: if no row has the
id, 0 rows are affected (`some (st, 0)`, not an error); otherwise the
UNIQUE constraints are checked for each column actually listed in the
`SET` clause against the other rows, throwing (`none`) on a clash, and on
success every row matching the id is rewritten and `changes` is 1 (the
primary key makes the match unique). -/
def Store.updateFields (st : Store) (id : Nat) (fs : FieldSet) :
    Option (Store × Nat) :=
  match st.rows.find? (fun r => r.id == id) with
  | none => some (st, 0)
  | some _ =>
    let clashU : Bool :=
      match fs.nomutilisateur with
      | none => false
      | some u => st.rows.any (fun x => x.id != id && x.nomutilisateur == u)
    let clashE : Bool :=
      match fs.email with
      | none => false
      | some e => st.rows.any (fun x => x.id != id && x.email == e)
    if clashU || clashE then
      none
    else
      some (⟨st.rows.map (fun x => if x.id == id then applyFields fs x else x),
             st.nextId⟩, 1)

/-- Statement `DELETE FROM utilisateurs WHERE id = ?`: removes every row
with the id and reports the number of removed rows as `changes`. -/
def Store.erase (st : Store) (id : Nat) : Store × Nat :=
  (⟨st.rows.filter (fun r => r.id != id), st.nextId⟩,
   (st.rows.filter (fun r => r.id == id)).length)

/-- An HTTP response as the handlers build them: a 201 with the created
user, a 200 with a user list, a single user, or a message, or an error
status with its message. -/
inductive Resp where
  | created (u : PublicUser)
  | okList (us : List PublicUser)
  | okUser (u : PublicUser)
  | okMsg (msg : String)
  | err (status : Nat) (msg : String)
deriving Repr, DecidableEq

/-- A JSON request body for the create and update routes: each field is
absent (`none`) or a string. -/
structure Body where
  nomutilisateur : Option String
  motdepasse : Option String
  email : Option String
deriving Repr, DecidableEq

/-- Route `POST /utilisateurs`: the `validateUserInput` middleware rejects
the request with 400 when any of the three fields is falsy; otherwise the
secret is argon2-hashed (consuming one salt) and inserted; a constraint
violation is caught and mapped to 400. Returns the response, the new
store, and the new salt counter. -/
def createUser (H : Hasher) (salt : Nat) (st : Store) (req : Body) :
    Resp × Store × Nat :=
  if !(present req.nomutilisateur && present req.motdepasse &&
       present req.email) then
    (.err 400 "Tous les champs sont requis", st, salt)
  else
    let u := req.nomutilisateur.getD ""
    let p := req.motdepasse.getD ""
    let e := req.email.getD ""
    match st.insert u (H.hash salt p) e with
    | none => (.err 400 "Erreur lors de la création de l\x27utilisateur", st, salt + 1)
    | some (st2, id) => (.created ⟨id, u, e⟩, st2, salt + 1)

/-- Route `GET /utilisateurs`: query `SELECT id, nomutilisateur, email FROM
utilisateurs` — every row, projected, in stored (rowid) order. -/
def getAllUsers (st : Store) : Resp :=
  .okList (st.rows.map toPublic)

/-- Route `GET /utilisateurs/:id`: 404 when no row matches, otherwise the
projected row. -/
def getUser (st : Store) (id : Nat) : Resp :=
  match st.getById id with
  | none => .err 404 "Utilisateur non trouvé"
  | some r => .okUser (toPublic r)

/-- The `updates` object built by the PUT handler of `src/index.ts`: the
spread `...(field && { field })` keeps exactly the truthy fields, and a
truthy `motdepasse` is replaced by its argon2 hash. -/
def mkFieldSet (H : Hasher) (salt : Nat) (req : Body) : FieldSet :=
  { nomutilisateur := if present req.nomutilisateur then req.nomutilisateur else none
    motdepasse :=
      if present req.motdepasse then some (H.hash salt (req.motdepasse.getD ""))
      else none
    email := if present req.email then req.email else none }

/-- Route `PUT /utilisateurs/:id` (the partial-update variant of
`src/index.ts`): 400 when all three fields are falsy; otherwise the `SET`
clause lists exactly the truthy fields, a truthy secret being argon2-hashed
first (consuming one salt); a constraint violation is caught as 400;
`changes = 0` yields 404; otherwise a success message. -/
def updateUser (H : Hasher) (salt : Nat) (st : Store) (id : Nat) (req : Body) :
    Resp × Store × Nat :=
  if !(present req.nomutilisateur || present req.motdepasse ||
       present req.email) then
    (.err 400 "Au moins un champ doit être fourni (nomutilisateur, motdepasse, ou email)",
     st, salt)
  else
    let salt2 := if present req.motdepasse then salt + 1 else salt
    match st.updateFields id (mkFieldSet H salt req) with
    | none => (.err 400 "Erreur lors de la mise à jour de l\x27utilisateur", st, salt2)
    | some (st2, changes) =>
      if changes == 0 then (.err 404 "Utilisateur non trouvé", st2, salt2)
      else (.okMsg "Utilisateur mis à jour avec succès", st2, salt2)

/-- Route `PUT /utilisateurs/:id` in the second source variant
(`part_000`): the `validateUserInput` middleware requires all three
fields, and the `SET` clause always writes all three columns. -/
def updateUserFull (H : Hasher) (salt : Nat) (st : Store) (id : Nat) (req : Body) :
    Resp × Store × Nat :=
  if !(present req.nomutilisateur && present req.motdepasse &&
       present req.email) then
    (.err 400 "Tous les champs sont requis", st, salt)
  else
    let fs : FieldSet :=
      { nomutilisateur := some (req.nomutilisateur.getD "")
        motdepasse := some (H.hash salt (req.motdepasse.getD ""))
        email := some (req.email.getD "") }
    match st.updateFields id fs with
    | none => (.err 400 "Erreur lors de la mise à jour de l\x27utilisateur", st, salt + 1)
    | some (st2, changes) =>
      if changes == 0 then (.err 404 "Utilisateur non trouvé", st2, salt + 1)
      else (.okMsg "Utilisateur mis à jour avec succès", st2, salt + 1)

/-- Route `DELETE /utilisateurs/:id`: `changes = 0` yields 404, otherwise a
success message. -/
def deleteUser (st : Store) (id : Nat) : Resp × Store :=
  let res := st.erase id
  if res.2 == 0 then (.err 404 "Utilisateur non trouvé", res.1)
  else (.okMsg "Utilisateur supprimé avec succès", res.1)

/-- A JSON request body for `POST /verifier-motdepasse`. -/
structure VerifyBody where
  nomutilisateur : Option String
  motdepasse : Option String
deriving Repr, DecidableEq

/-- Route `POST /verifier-motdepasse`: 400 when either field is falsy, 404
when no row has the username, otherwise `argon2.verify` on the stored hash
decides between 200 and 401. Read-only: the store is unchanged. -/
def verifyPassword (H : Hasher) (st : Store) (req : VerifyBody) : Resp :=
  if !(present req.nomutilisateur && present req.motdepasse) then
    .err 400 "Nom d\x27utilisateur et mot de passe requis"
  else
    match st.getHashByUsername (req.nomutilisateur.getD "") with
    | none => .err 404 "Utilisateur non trouvé"
    | some h =>
      if H.verify h (req.motdepasse.getD "") then
        .okMsg "Mot de passe correct !"
      else
        .err 401 "Mot de passe incorrect, désolé"

/-- Ids strictly increase along the list (rowid order = id ascending). -/
def sortedIds : List Utilisateur → Bool
  | [] => true
  | r :: rs => rs.all (fun x => decide (r.id < x.id)) && sortedIds rs

/-- No two rows agree on the projection `f` (a UNIQUE column). -/
def distinctBy {α : Type} [BEq α] (f : Utilisateur → α) : List Utilisateur → Bool
  | [] => true
  | r :: rs => rs.all (fun x => !(f x == f r)) && distinctBy f rs

/-- The invariant SQLite maintains on the table: ids strictly increasing
in rowid order and below the AUTOINCREMENT counter, and the two UNIQUE
columns pairwise distinct. -/
def Store.wf (st : Store) : Bool :=
  sortedIds st.rows &&
  st.rows.all (fun r => decide (r.id < st.nextId)) &&
  distinctBy (fun r => r.nomutilisateur) st.rows &&
  distinctBy (fun r => r.email) st.rows

/-- A concrete hasher used to instantiate the abstract argon2 parameter in
closed examples: it satisfies `Hasher.Correct` definitionally. -/
def idHasher : Hasher :=
  { hash := fun _ s => s
    verify := fun tok c => c == tok }

/-- Normalising a request body by turning empty-string fields into absent
fields; used to state that the PUT handler treats the two identically. -/
def normBody (b : Body) : Body :=
  { nomutilisateur := if b.nomutilisateur = some "" then none else b.nomutilisateur
    motdepasse := if b.motdepasse = some "" then none else b.motdepasse
    email := if b.email = some "" then none else b.email }

/-- A one-row sample store as produced by the spec scenario: alice created
first, with her secret hashed by `idHasher` under salt 0. -/
def stAlice : Store :=
  ⟨[⟨1, "alice", idHasher.hash 0 "p@ss1", "a@x.io"⟩], 2⟩


theorem idHasher_correct : idHasher.Correct := fun _ _ _ => rfl

theorem present_norm (o : Option String) :
    present (if o = some "" then none else o) = present o := by
  by_cases h : o = some "" <;> simp [h, present]

theorem keep_norm (o : Option String) :
    (if present o then (if o = some "" then none else o) else none) =
      (if present o then o else none) := by
  by_cases h : o = some "" <;> simp [h, present]

theorem getD_norm (o : Option String) :
    (if o = some "" then none else o).getD "" = o.getD "" := by
  by_cases h : o = some "" <;> simp [h]

theorem mkFieldSet_norm (H : Hasher) (salt : Nat) (b : Body) :
    mkFieldSet H salt (normBody b) = mkFieldSet H salt b := by
  simp [mkFieldSet, normBody, present_norm, getD_norm, keep_norm]

theorem present_normBody_n (b : Body) :
    present (normBody b).nomutilisateur = present b.nomutilisateur := by
  simp [normBody, present_norm]

theorem present_normBody_p (b : Body) :
    present (normBody b).motdepasse = present b.motdepasse := by
  simp [normBody, present_norm]

theorem present_normBody_e (b : Body) :
    present (normBody b).email = present b.email := by
  simp [normBody, present_norm]

/-- Claim C10: the PUT handler treats a field supplied as the empty string
exactly like an absent field — the response, the stored rows and the salt
counter all agree with those for the normalised request, so an empty value
is never written — and a request whose every field is the empty string is
rejected exactly like an all-absent one. -/
theorem update_empty_absent (H : Hasher) (salt : Nat) (st : Store) (id : Nat) (b : Body) :
    updateUser H salt st id (normBody b) = updateUser H salt st id b ∧
    updateUser H salt st id ⟨some "", some "", some ""⟩ =
      (.err 400 "Au moins un champ doit être fourni (nomutilisateur, motdepasse, ou email)",
       st, salt) := by
  constructor
  · simp only [updateUser, present_normBody_n, present_normBody_p, present_normBody_e,
      mkFieldSet_norm]
  · simp [updateUser, present]

/-- Claim C3: accounts returned by createAccount, getAccount and
listAccounts never contain the secretHash column: the list and single-row
reads are invariant under arbitrary rewriting of every stored hash, and
the create response is independent of the hasher and the salt. -/
theorem responses_omit_secret (H H2 : Hasher) (salt salt2 : Nat) (st : Store)
    (f : Utilisateur → String) (req : Body) (id : Nat) :
    getAllUsers ⟨st.rows.map (fun r => { r with motdepasse := f r }), st.nextId⟩ =
      getAllUsers st ∧
    getUser ⟨st.rows.map (fun r => { r with motdepasse := f r }), st.nextId⟩ id =
      getUser st id ∧
    (createUser H salt st req).1 = (createUser H2 salt2 st req).1 := by
  refine ⟨?_, ?_, ?_⟩
  · simp [getAllUsers, List.map_map, toPublic]
  · simp only [getUser, Store.getById, List.find?_map]
    have hcomp : ((fun r : Utilisateur => r.id == id) ∘ fun r : Utilisateur =>
        { id := r.id, nomutilisateur := r.nomutilisateur, motdepasse := f r, email := r.email }) =
        (fun r : Utilisateur => r.id == id) := rfl
    rw [hcomp]
    cases h : st.rows.find? (fun r => r.id == id) <;> simp [h, toPublic]
  · by_cases hv : (present req.nomutilisateur && present req.motdepasse &&
        present req.email) = true
    · simp only [createUser, hv, Bool.not_true, Store.insert]
      by_cases hc : (st.rows.any fun r =>
          r.nomutilisateur == req.nomutilisateur.getD "" || r.email == req.email.getD "") = true <;>
        simp [hc]
    · simp [createUser, Bool.eq_false_iff.mpr hv]

theorem updateFields_zero {st st2 : Store} {id : Nat} {fs : FieldSet} {ch : Nat}
    (h : st.updateFields id fs = some (st2, ch)) (h0 : ch = 0) : st2 = st := by
  unfold Store.updateFields at h
  cases hf : st.rows.find? (fun r => r.id == id) with
  | none =>
    rw [hf] at h
    simp only [Option.some.injEq, Prod.mk.injEq] at h
    exact h.1.symm
  | some r =>
    rw [hf] at h
    simp only at h
    split at h
    · exact absurd h (by simp)
    · simp only [Option.some.injEq, Prod.mk.injEq] at h
      omega

theorem erase_no_match {st : Store} {id : Nat}
    (h : (st.rows.filter (fun r => r.id == id)).length = 0) :
    st.rows.filter (fun r => r.id != id) = st.rows := by
  rw [List.length_eq_zero, List.filter_eq_nil_iff] at h
  rw [List.filter_eq_self]
  intro a ha
  simpa using h a ha

/-- Claim C5: every createAccount, updateAccount or deleteAccount call
that returns an error response (validation, conflict or not-found, at any
point including after hashing but before the write) leaves the store
exactly as it was before the call. -/
theorem failed_write_preserves (H : Hasher) (salt : Nat) (st : Store) (id : Nat) (req : Body) :
    (∀ s m, (createUser H salt st req).1 = .err s m → (createUser H salt st req).2.1 = st) ∧
    (∀ s m, (updateUser H salt st id req).1 = .err s m → (updateUser H salt st id req).2.1 = st) ∧
    (∀ s m, (deleteUser st id).1 = .err s m → (deleteUser st id).2 = st) := by
  refine ⟨?_, ?_, ?_⟩
  · intro s m h
    by_cases hv : (present req.nomutilisateur && present req.motdepasse &&
        present req.email) = true
    · cases hins : st.insert (req.nomutilisateur.getD "")
          (H.hash salt (req.motdepasse.getD "")) (req.email.getD "") with
      | none => simp [createUser, hv, hins]
      | some val =>
        obtain ⟨st2, nid⟩ := val
        simp [createUser, hv, hins] at h
    · simp [createUser, Bool.eq_false_iff.mpr hv]
  · intro s m h
    by_cases hv : (present req.nomutilisateur || present req.motdepasse ||
        present req.email) = true
    · cases hu : st.updateFields id (mkFieldSet H salt req) with
      | none => simp [updateUser, hv, hu]
      | some val =>
        obtain ⟨st2, ch⟩ := val
        by_cases hch : ch = 0
        · simp [updateUser, hv, hu, hch, updateFields_zero hu hch]
        · simp [updateUser, hv, hu, hch] at h
    · simp [updateUser, Bool.eq_false_iff.mpr hv]
  · intro s m h
    by_cases hz : ((st.rows.filter (fun r => r.id == id)).length = 0)
    · simp only [deleteUser, Store.erase, hz]
      simp [erase_no_match hz]
    · simp [deleteUser, Store.erase, hz] at h

theorem deleteUser_store (st : Store) (id : Nat) :
    (deleteUser st id).2 = ⟨st.rows.filter (fun r => r.id != id), st.nextId⟩ := by
  simp only [deleteUser, Store.erase]
  split <;> rfl

theorem deleteUser_err_iff (st : Store) (id : Nat) :
    (deleteUser st id).1 = .err 404 "Utilisateur non trouvé" ↔ ∀ r ∈ st.rows, r.id ≠ id := by
  have hmain : ((st.rows.filter (fun r => r.id == id)).length = 0) ↔ ∀ r ∈ st.rows, r.id ≠ id := by
    rw [List.length_eq_zero, List.filter_eq_nil_iff]
    simp
  by_cases hz : ((st.rows.filter (fun r => r.id == id)).length = 0)
  · simp [deleteUser, Store.erase, hz]
    exact hmain.mp hz
  · have hnot : ¬ (∀ r ∈ st.rows, r.id ≠ id) := fun hall => hz (hmain.mpr hall)
    simp [deleteUser, Store.erase, hz, hnot]

/-- Claim C8: deleteAccount returns NotFound exactly when no stored
account has the id; deleting an existing id returns the confirmation and
deleting the same id again returns NotFound. -/
theorem delete_idem (st : Store) (id : Nat) :
    ((deleteUser st id).1 = .err 404 "Utilisateur non trouvé" ↔ ∀ r ∈ st.rows, r.id ≠ id) ∧
    ((∃ r ∈ st.rows, r.id = id) →
      (deleteUser st id).1 = .okMsg "Utilisateur supprimé avec succès" ∧
      (deleteUser (deleteUser st id).2 id).1 = .err 404 "Utilisateur non trouvé") := by
  refine ⟨deleteUser_err_iff st id, ?_⟩
  rintro ⟨r, hr, hid⟩
  have hz : ¬ ((st.rows.filter (fun x => x.id == id)).length = 0) := by
    intro h0
    rw [List.length_eq_zero, List.filter_eq_nil_iff] at h0
    exact h0 r hr (by simp [hid])
  constructor
  · simp [deleteUser, Store.erase, hz]
  · rw [deleteUser_err_iff, deleteUser_store]
    intro x hx
    simp only [List.mem_filter] at hx
    simpa using hx.2

theorem updateFields_none_found {st : Store} {id : Nat} {fs : FieldSet}
    (h : st.updateFields id fs = none) : ∃ r ∈ st.rows, r.id = id := by
  unfold Store.updateFields at h
  cases hf : st.rows.find? (fun r => r.id == id) with
  | none => rw [hf] at h; simp at h
  | some r =>
    exact ⟨r, List.mem_of_find?_eq_some hf, by simpa using List.find?_some hf⟩

theorem updateFields_zero_notfound {st st2 : Store} {id : Nat} {fs : FieldSet}
    (h : st.updateFields id fs = some (st2, 0)) :
    st.rows.find? (fun r => r.id == id) = none := by
  unfold Store.updateFields at h
  cases hf : st.rows.find? (fun r => r.id == id) with
  | none => rfl
  | some r =>
    rw [hf] at h
    simp only at h
    split at h
    · simp at h
    · simp at h

theorem updateFields_pos {st st2 : Store} {id : Nat} {fs : FieldSet} {ch : Nat}
    (h : st.updateFields id fs = some (st2, ch)) (hch : ch ≠ 0) :
    (∃ r ∈ st.rows, r.id = id) ∧
    st2.rows = st.rows.map (fun x => if x.id == id then applyFields fs x else x) ∧
    st2.nextId = st.nextId := by
  unfold Store.updateFields at h
  cases hf : st.rows.find? (fun r => r.id == id) with
  | none =>
    rw [hf] at h
    simp only [Option.some.injEq, Prod.mk.injEq] at h
    exact absurd h.2.symm hch
  | some r =>
    rw [hf] at h
    simp only at h
    split at h
    · simp at h
    · simp only [Option.some.injEq, Prod.mk.injEq] at h
      obtain ⟨hst, _⟩ := h
      refine ⟨⟨r, List.mem_of_find?_eq_some hf, by simpa using List.find?_some hf⟩, ?_, ?_⟩
      · rw [← hst]
      · rw [← hst]

/-- Claim C7: updateAccount returns the validation error exactly when all
three of username, secret and email are absent, and — given at least one
present field — returns NotFound exactly when no stored account has the
requested id. -/
theorem update_taxonomy (H : Hasher) (salt : Nat) (st : Store) (id : Nat) (req : Body) :
    ((updateUser H salt st id req).1 =
        .err 400 "Au moins un champ doit être fourni (nomutilisateur, motdepasse, ou email)" ↔
      (present req.nomutilisateur = false ∧ present req.motdepasse = false ∧
       present req.email = false)) ∧
    ((present req.nomutilisateur || present req.motdepasse || present req.email) = true →
      ((updateUser H salt st id req).1 = .err 404 "Utilisateur non trouvé" ↔
        ∀ r ∈ st.rows, r.id ≠ id)) := by
  by_cases hv : (present req.nomutilisateur || present req.motdepasse ||
      present req.email) = true
  · have hall : ¬(present req.nomutilisateur = false ∧ present req.motdepasse = false ∧
        present req.email = false) := by
      rintro ⟨h1, h2, h3⟩
      rw [h1, h2, h3] at hv
      simp at hv
    refine ⟨?_, fun _ => ?_⟩
    · cases hu : st.updateFields id (mkFieldSet H salt req) with
      | none =>
        have hresp : (updateUser H salt st id req).1 =
            .err 400 "Erreur lors de la mise à jour de l\x27utilisateur" := by
          simp [updateUser, hv, hu]
        rw [hresp]
        constructor
        · intro heq; simp at heq
        · intro hx; exact absurd hx hall
      | some val =>
        obtain ⟨st2, ch⟩ := val
        by_cases hch : ch = 0
        · subst hch
          have hresp : (updateUser H salt st id req).1 = .err 404 "Utilisateur non trouvé" := by
            simp [updateUser, hv, hu]
          rw [hresp]
          constructor
          · intro heq; simp at heq
          · intro hx; exact absurd hx hall
        · have hresp : (updateUser H salt st id req).1 =
              .okMsg "Utilisateur mis à jour avec succès" := by
            simp [updateUser, hv, hu, hch]
          rw [hresp]
          constructor
          · intro heq; simp at heq
          · intro hx; exact absurd hx hall
    · cases hu : st.updateFields id (mkFieldSet H salt req) with
      | none =>
        obtain ⟨r, hr, hrid⟩ := updateFields_none_found hu
        have hresp : (updateUser H salt st id req).1 =
            .err 400 "Erreur lors de la mise à jour de l\x27utilisateur" := by
          simp [updateUser, hv, hu]
        rw [hresp]
        constructor
        · intro heq; simp at heq
        · intro hall2; exact absurd hrid (hall2 r hr)
      | some val =>
        obtain ⟨st2, ch⟩ := val
        by_cases hch : ch = 0
        · subst hch
          have hnf := updateFields_zero_notfound hu
          rw [List.find?_eq_none] at hnf
          have hresp : (updateUser H salt st id req).1 = .err 404 "Utilisateur non trouvé" := by
            simp [updateUser, hv, hu]
          rw [hresp]
          constructor
          · intro _ r hr
            simpa using hnf r hr
          · intro _; rfl
        · obtain ⟨⟨r, hr, hrid⟩, _, _⟩ := updateFields_pos hu hch
          have hresp : (updateUser H salt st id req).1 =
              .okMsg "Utilisateur mis à jour avec succès" := by
            simp [updateUser, hv, hu, hch]
          rw [hresp]
          constructor
          · intro heq; simp at heq
          · intro hall2; exact absurd hrid (hall2 r hr)
  · have hv3 : present req.nomutilisateur = false ∧ present req.motdepasse = false ∧
        present req.email = false := by
      simp only [Bool.or_eq_true, not_or, Bool.not_eq_true] at hv
      exact ⟨hv.1.1, hv.1.2, hv.2⟩
    obtain ⟨h1, h2, h3⟩ := hv3
    refine ⟨?_, fun hcontra => ?_⟩
    · simp [updateUser, h1, h2, h3]
    · rw [h1, h2, h3] at hcontra
      simp at hcontra

/-- Claim C2: for any correct hasher and any stored account whose hash
token was produced from the secret s0, verifyCredentials answers the match
response exactly when the candidate secret equals s0 and the mismatch
response for every other candidate. -/
theorem verify_exact (H : Hasher) (hC : H.Correct) (st : Store) (u c s0 : String) (salt0 : Nat)
    (hu : u ≠ "") (hc : c ≠ "")
    (hstored : st.getHashByUsername u = some (H.hash salt0 s0)) :
    verifyPassword H st ⟨some u, some c⟩ =
      if c = s0 then .okMsg "Mot de passe correct !"
      else .err 401 "Mot de passe incorrect, désolé" := by
  have hpu : present (some u) = true := by simp [present, hu]
  have hpc : present (some c) = true := by simp [present, hc]
  simp only [verifyPassword, hpu, hpc, Bool.and_self, Bool.not_true, Bool.false_eq_true,
    if_false, Option.getD_some]
  rw [hstored]
  dsimp only
  simp only [hC salt0 s0 c]
  by_cases hcs : c = s0 <;> simp [hcs]

/-- Claim C6: with both inputs non-empty, verifyCredentials reports the
404 not-found response exactly when no account has the username, reports
the distinct 401 mismatch response when the account exists but the hash
check fails, and the two responses are distinguishable. -/
theorem verify_distinguishes (H : Hasher) (st : Store) (u c : String)
    (hu : u ≠ "") (hc : c ≠ "") :
    (verifyPassword H st ⟨some u, some c⟩ = .err 404 "Utilisateur non trouvé" ↔
      ∀ r ∈ st.rows, r.nomutilisateur ≠ u) ∧
    (∀ h, st.getHashByUsername u = some h → H.verify h c = false →
      verifyPassword H st ⟨some u, some c⟩ = .err 401 "Mot de passe incorrect, désolé") ∧
    (Resp.err 404 "Utilisateur non trouvé" ≠ Resp.err 401 "Mot de passe incorrect, désolé") := by
  have hpu : present (some u) = true := by simp [present, hu]
  have hpc : present (some c) = true := by simp [present, hc]
  cases hf : st.rows.find? (fun r => r.nomutilisateur == u) with
  | none =>
    have hg : st.getHashByUsername u = none := by
      simp [Store.getHashByUsername, hf]
    refine ⟨?_, ?_, by simp⟩
    · have hresp : verifyPassword H st ⟨some u, some c⟩ = .err 404 "Utilisateur non trouvé" := by
        simp only [verifyPassword, hpu, hpc, Bool.and_self, Bool.not_true, Bool.false_eq_true,
          if_false, Option.getD_some]
        rw [hg]
      rw [hresp]
      simp only [true_iff]
      rw [List.find?_eq_none] at hf
      intro r hr
      simpa using hf r hr
    · intro h hsome
      rw [hg] at hsome
      exact absurd hsome (by simp)
  | some r =>
    have hg : st.getHashByUsername u = some r.motdepasse := by
      simp [Store.getHashByUsername, hf]
    have hmem := List.mem_of_find?_eq_some hf
    have hru : r.nomutilisateur = u := by simpa using List.find?_some hf
    refine ⟨?_, ?_, by simp⟩
    · have hresp : verifyPassword H st ⟨some u, some c⟩ =
          (if H.verify r.motdepasse c then .okMsg "Mot de passe correct !"
           else .err 401 "Mot de passe incorrect, désolé") := by
        simp only [verifyPassword, hpu, hpc, Bool.and_self, Bool.not_true, Bool.false_eq_true,
          if_false, Option.getD_some]
        rw [hg]
      rw [hresp]
      constructor
      · intro heq
        by_cases hvf : H.verify r.motdepasse c = true <;> simp [hvf] at heq
      · intro hall2
        exact absurd hru (hall2 r hmem)
    · intro h hsome hfalse
      rw [hg] at hsome
      have : h = r.motdepasse := by simpa using hsome.symm
      subst this
      simp only [verifyPassword, hpu, hpc, Bool.and_self, Bool.not_true, Bool.false_eq_true,
        if_false, Option.getD_some]
      rw [hg]
      dsimp only
      simp only [hfalse]
      simp

theorem getD_present {o : Option String} (h : present o = true) (d : String) :
    o.getD d = o.getD "" := by
  cases o with
  | none => simp [present] at h
  | some s => rfl

theorem getD_keep (o : Option String) (d : String) :
    (if present o then o else none).getD d = if present o then o.getD "" else d := by
  by_cases h : present o = true
  · simp [h, getD_present h]
  · simp [h]

theorem getD_ite_some (b : Bool) (v d : String) :
    (if b then some v else none).getD d = if b then v else d := by
  cases b <;> simp

theorem applyFields_mkFieldSet (H : Hasher) (salt : Nat) (req : Body) (x : Utilisateur) :
    applyFields (mkFieldSet H salt req) x =
      { x with
        nomutilisateur := if present req.nomutilisateur then req.nomutilisateur.getD ""
          else x.nomutilisateur
        motdepasse := if present req.motdepasse then H.hash salt (req.motdepasse.getD "")
          else x.motdepasse
        email := if present req.email then req.email.getD "" else x.email } := by
  cases x with
  | mk i n p e =>
    simp only [applyFields, mkFieldSet, getD_keep, getD_ite_some]

/-- Claim C1: whenever a partial update succeeds, a row with the given id
exists and the new table is the old one with exactly the supplied fields
of that row replaced — a supplied secret by its hash, a supplied username
or email by its value — while every non-supplied field and every other row
keeps its previous value; the written column set is exactly the supplied
field set. -/
theorem update_frame (H : Hasher) (salt : Nat) (st : Store) (id : Nat) (req : Body)
    (hsucc : (updateUser H salt st id req).1 = .okMsg "Utilisateur mis à jour avec succès") :
    (∃ r ∈ st.rows, r.id = id) ∧
    (updateUser H salt st id req).2.1.rows =
      st.rows.map (fun x =>
        if x.id = id then
          { x with
            nomutilisateur := if present req.nomutilisateur then req.nomutilisateur.getD ""
              else x.nomutilisateur
            motdepasse := if present req.motdepasse then H.hash salt (req.motdepasse.getD "")
              else x.motdepasse
            email := if present req.email then req.email.getD "" else x.email }
        else x) := by
  by_cases hv : (present req.nomutilisateur || present req.motdepasse ||
      present req.email) = true
  · cases hu : st.updateFields id (mkFieldSet H salt req) with
    | none => simp [updateUser, hv, hu] at hsucc
    | some val =>
      obtain ⟨st2, ch⟩ := val
      by_cases hch : ch = 0
      · subst hch
        simp [updateUser, hv, hu] at hsucc
      · obtain ⟨hex, hrows, _⟩ := updateFields_pos hu hch
        have hst : (updateUser H salt st id req).2.1 = st2 := by
          simp [updateUser, hv, hu, hch]
        refine ⟨hex, ?_⟩
        rw [hst, hrows]
        have hfun : (fun x : Utilisateur =>
            if x.id == id then applyFields (mkFieldSet H salt req) x else x) =
            (fun x : Utilisateur =>
              if x.id = id then
                { x with
                  nomutilisateur := if present req.nomutilisateur then req.nomutilisateur.getD ""
                    else x.nomutilisateur
                  motdepasse := if present req.motdepasse then H.hash salt (req.motdepasse.getD "")
                    else x.motdepasse
                  email := if present req.email then req.email.getD "" else x.email }
              else x) := by
          funext x
          by_cases hid : x.id = id <;> simp [hid, applyFields_mkFieldSet]
        rw [hfun]
  · simp [updateUser, Bool.eq_false_iff.mpr hv] at hsucc

theorem distinct_count {α : Type} [BEq α] [LawfulBEq α] (f : Utilisateur → α)
    (l : List Utilisateur) (hd : distinctBy f l = true) (v : α)
    (hm : l.any (fun r => f r == v) = true) :
    l.countP (fun r => f r == v) = 1 := by
  induction l with
  | nil => simp at hm
  | cons r rs ih =>
    simp only [distinctBy, Bool.and_eq_true] at hd
    obtain ⟨hall, hdist⟩ := hd
    rw [List.all_eq_true] at hall
    rw [List.countP_cons]
    by_cases hr : (f r == v) = true
    · have hfr : f r = v := eq_of_beq hr
      have h0 : rs.countP (fun x => f x == v) = 0 := by
        rw [List.countP_eq_zero]
        intro a ha
        have hne := hall a ha
        simp only [Bool.not_eq_true'] at hne
        rw [← hfr]
        simp only [hne]
        exact Bool.false_ne_true
      rw [h0, if_pos hr]
    · simp only [if_neg hr, Nat.add_zero]
      have hm2 : rs.any (fun x => f x == v) = true := by
        simp only [List.any_cons, Bool.or_eq_true] at hm
        rcases hm with h | h
        · exact absurd h hr
        · exact h
      exact ih hdist hm2

/-- Claim C4: on a well-formed store, a valid create request whose
username or email is already taken fails with the conflict error and
leaves the store unchanged, and the store still contains exactly one
account with that username (respectively that email). -/
theorem create_conflict (H : Hasher) (salt : Nat) (st : Store) (u p e : String)
    (hwf : st.wf = true) (hu : u ≠ "") (hp : p ≠ "") (he : e ≠ "")
    (htaken : st.rows.any (fun r => r.nomutilisateur == u || r.email == e) = true) :
    createUser H salt st ⟨some u, some p, some e⟩ =
      (.err 400 "Erreur lors de la création de l\x27utilisateur", st, salt + 1) ∧
    (st.rows.any (fun r => r.nomutilisateur == u) = true →
      st.rows.countP (fun r => r.nomutilisateur == u) = 1) ∧
    (st.rows.any (fun r => r.email == e) = true →
      st.rows.countP (fun r => r.email == e) = 1) := by
  simp only [Store.wf, Bool.and_eq_true] at hwf
  obtain ⟨⟨⟨_, _⟩, hdU⟩, hdE⟩ := hwf
  refine ⟨?_, fun hm => distinct_count _ _ hdU u hm, fun hm => distinct_count _ _ hdE e hm⟩
  simp [createUser, present, hu, hp, he, Store.insert, htaken]

theorem sortedIds_pairwise {l : List Utilisateur} (h : sortedIds l = true) :
    List.Pairwise (fun a b => a.id < b.id) l := by
  induction l with
  | nil => exact List.Pairwise.nil
  | cons r rs ih =>
    simp only [sortedIds, Bool.and_eq_true] at h
    rw [List.pairwise_cons]
    refine ⟨?_, ih h.2⟩
    intro a ha
    have := (List.all_eq_true.mp h.1) a ha
    simpa using this

theorem insert_some {st : Store} {u p e : String} {st2 : Store} {nid : Nat}
    (h : st.insert u p e = some (st2, nid)) :
    st2 = ⟨st.rows ++ [⟨st.nextId, u, p, e⟩], st.nextId + 1⟩ ∧ nid = st.nextId := by
  unfold Store.insert at h
  split at h
  · simp at h
  · simp only [Option.some.injEq, Prod.mk.injEq] at h
    exact ⟨h.1.symm, h.2.symm⟩

/-- Claim C9: on a well-formed store, listAccounts returns the snapshot
of all stored accounts in stored order, whose ids are strictly ascending;
a successful create appends its row at the end with an id larger than
every existing id, so storage order is insertion order by primary key. -/
theorem list_snapshot (st : Store) (hwf : st.wf = true) :
    getAllUsers st = .okList (st.rows.map toPublic) ∧
    List.Pairwise (fun a b => a.id < b.id) (st.rows.map toPublic) ∧
    (∀ H salt req pu st2 salt2, createUser H salt st req = (.created pu, st2, salt2) →
      ∃ r : Utilisateur, st2.rows = st.rows ++ [r] ∧ r.id = st.nextId ∧
        ∀ x ∈ st.rows, x.id < r.id) := by
  simp only [Store.wf, Bool.and_eq_true] at hwf
  obtain ⟨⟨⟨hs, hb⟩, _⟩, _⟩ := hwf
  refine ⟨rfl, ?_, ?_⟩
  · rw [List.pairwise_map]
    exact sortedIds_pairwise hs
  · intro H salt req pu st2 salt2 h
    by_cases hv : (present req.nomutilisateur && present req.motdepasse &&
        present req.email) = true
    · cases hins : st.insert (req.nomutilisateur.getD "")
          (H.hash salt (req.motdepasse.getD "")) (req.email.getD "") with
      | none => simp [createUser, hv, hins] at h
      | some val =>
        obtain ⟨st3, nid⟩ := val
        obtain ⟨hst3, hnid⟩ := insert_some hins
        have hcomp : createUser H salt st req =
            (.created ⟨nid, req.nomutilisateur.getD "", req.email.getD ""⟩, st3, salt + 1) := by
          simp [createUser, hv, hins]
        have heq := hcomp.symm.trans h
        simp only [Prod.mk.injEq, Resp.created.injEq] at heq
        obtain ⟨_, hst2, _⟩ := heq
        refine ⟨⟨st.nextId, req.nomutilisateur.getD "",
          H.hash salt (req.motdepasse.getD ""), req.email.getD ""⟩, ?_, rfl, ?_⟩
        · rw [← hst2, hst3]
        · intro x hx
          have := (List.all_eq_true.mp hb) x hx
          simpa using this
    · simp [createUser, Bool.eq_false_iff.mpr hv] at h

/-- Concrete instance for claim C1: updating only the email of the one
stored account changes just that column. -/
theorem update_frame_instance :
    (∃ r ∈ stAlice.rows, r.id = 1) ∧
    (updateUser idHasher 0 stAlice 1 ⟨none, none, some "new@x"⟩).2.1.rows =
      [⟨1, "alice", idHasher.hash 0 "p@ss1", "new@x"⟩] := by
  obtain ⟨hex, hrows⟩ := update_frame idHasher 0 stAlice 1 ⟨none, none, some "new@x"⟩ (by decide)
  refine ⟨hex, ?_⟩
  rw [hrows]
  decide

/-- Concrete instance for claim C2, on the spec scenario account. -/
theorem verify_exact_instance :
    verifyPassword idHasher stAlice ⟨some "alice", some "p@ss1"⟩ =
      if "p@ss1" = "p@ss1" then Resp.okMsg "Mot de passe correct !"
      else Resp.err 401 "Mot de passe incorrect, désolé" :=
  verify_exact idHasher idHasher_correct stAlice "alice" "p@ss1" "p@ss1" 0
    (by decide) (by decide) rfl

/-- Concrete instance for claim C4: re-creating the taken username
fails and the store keeps exactly one such account. -/
theorem create_conflict_instance :
    createUser idHasher 5 stAlice ⟨some "alice", some "x", some "b@x.io"⟩ =
      (.err 400 "Erreur lors de la création de l\x27utilisateur", stAlice, 6) ∧
    stAlice.rows.countP (fun r => r.nomutilisateur == "alice") = 1 := by
  obtain ⟨h1, h2, _⟩ := create_conflict idHasher 5 stAlice "alice" "x" "b@x.io"
    (by decide) (by decide) (by decide) (by decide) (by decide)
  exact ⟨h1, h2 (by decide)⟩

/-- Concrete instance for claim C5: a conflicting create, an update of a
missing id and a delete of a missing id all leave the store unchanged. -/
theorem failed_write_instance :
    (createUser idHasher 0 stAlice ⟨some "alice", some "pw", some "c@x.io"⟩).2.1 = stAlice ∧
    (updateUser idHasher 0 stAlice 9 ⟨some "alice", some "pw", some "c@x.io"⟩).2.1 = stAlice ∧
    (deleteUser stAlice 9).2 = stAlice := by
  obtain ⟨h1, h2, h3⟩ := failed_write_preserves idHasher 0 stAlice 9
    ⟨some "alice", some "pw", some "c@x.io"⟩
  exact ⟨h1 400 "Erreur lors de la création de l\x27utilisateur" (by decide),
         h2 404 "Utilisateur non trouvé" (by decide),
         h3 404 "Utilisateur non trouvé" (by decide)⟩

/-- Concrete instance for claim C6: unknown username gives 404, wrong
secret gives 401. -/
theorem verify_distinguishes_instance :
    verifyPassword idHasher stAlice ⟨some "zoe", some "p@ss1"⟩ =
      .err 404 "Utilisateur non trouvé" ∧
    verifyPassword idHasher stAlice ⟨some "alice", some "wrong"⟩ =
      .err 401 "Mot de passe incorrect, désolé" := by
  obtain ⟨hiff, _, _⟩ := verify_distinguishes idHasher stAlice "zoe" "p@ss1"
    (by decide) (by decide)
  obtain ⟨_, hmm, _⟩ := verify_distinguishes idHasher stAlice "alice" "wrong"
    (by decide) (by decide)
  exact ⟨hiff.mpr (by decide), hmm "p@ss1" rfl (by decide)⟩

/-- Concrete instance for claim C7: the all-absent request gives the
validation error and an unknown id gives 404. -/
theorem update_taxonomy_instance :
    (updateUser idHasher 0 stAlice 1 ⟨none, none, none⟩).1 =
      .err 400 "Au moins un champ doit être fourni (nomutilisateur, motdepasse, ou email)" ∧
    (updateUser idHasher 0 stAlice 9 ⟨none, none, some "z@x"⟩).1 =
      .err 404 "Utilisateur non trouvé" := by
  obtain ⟨h1, _⟩ := update_taxonomy idHasher 0 stAlice 1 ⟨none, none, none⟩
  obtain ⟨_, h2⟩ := update_taxonomy idHasher 0 stAlice 9 ⟨none, none, some "z@x"⟩
  exact ⟨h1.mpr ⟨rfl, rfl, rfl⟩, (h2 (by decide)).mpr (by decide)⟩

/-- Concrete instance for claim C8: the double delete of the spec
scenario. -/
theorem delete_idem_instance :
    (deleteUser stAlice 1).1 = .okMsg "Utilisateur supprimé avec succès" ∧
    (deleteUser (deleteUser stAlice 1).2 1).1 = .err 404 "Utilisateur non trouvé" :=
  (delete_idem stAlice 1).2 (by decide)

/-- Concrete instance for claim C9 on the one-account store. -/
theorem list_snapshot_instance :
    getAllUsers stAlice = .okList (stAlice.rows.map toPublic) ∧
    List.Pairwise (fun a b => a.id < b.id) (stAlice.rows.map toPublic) := by
  obtain ⟨h1, h2, _⟩ := list_snapshot stAlice (by decide)
  exact ⟨h1, h2⟩

/-- Documentation of the second source variant: its PUT route rejects any
request that does not supply all three fields, unlike the partial-update
route proved above (the spec resolves the duplication in favour of the
partial-update behaviour). -/
theorem updateUserFull_rejects_partial (H : Hasher) (salt : Nat) (st : Store) (id : Nat) :
    (updateUserFull H salt st id ⟨none, none, some "z@x"⟩).1 =
      .err 400 "Tous les champs sont requis" := rfl

end ApiRest
